import Mathlib

/-!
Verification development for the Eberl GuideOne report auto-filler
(`src/eberl_report_filler.py`).

Paragraph text is modelled as `List Char` (one entry per Unicode code
point, matching Python `str` indexing).  Page text for the PDF extractor
is modelled as `List Nat` so that lone surrogates — code points a Python
`str` can hold but UTF-8 cannot encode — are representable.
-/

namespace Eberl

abbrev Str := List Char

/-- The ASCII whitespace characters recognised by Python `str.split()`
(space, tab, newline, carriage return, vertical tab, form feed); the
Unicode-only whitespace code points never occur in this pipeline's data. -/
def isSpace (c : Char) : Bool :=
  (c == ' ') || (c == '\t') || (c == '\n') || (c.toNat == 13) ||
    (c.toNat == 11) || (c.toNat == 12)

/-- Worker for `words`: `cur` holds the current in-progress word, reversed. -/
def wordsAux : List Char → List Char → List Str
  | [], [] => []
  | [], cur => [cur.reverse]
  | c :: rest, cur =>
    if isSpace c then
      if cur.isEmpty then wordsAux rest [] else cur.reverse :: wordsAux rest []
    else wordsAux rest (c :: cur)

/-- Python `s.split()` with no separator: split on runs of whitespace,
discarding empty tokens (mirrors `para.text.split()` on line 33). -/
def words (s : Str) : List Str := wordsAux s []

/-- Membership of a character in the strip set `"[]"`. -/
def isBracketChar (c : Char) : Bool := (c == '[') || (c == ']')

/-- Python `word.strip("[]")` (line 35): removes ALL leading and ALL
trailing characters drawn from the set `{'[', ']'}`. -/
def stripBrackets (w : Str) : Str :=
  ((w.dropWhile isBracketChar).reverse.dropWhile isBracketChar).reverse

/-- The guard on line 34: `word.startswith("[") and word.endswith("]")`. -/
def isPlaceholderToken (w : Str) : Bool :=
  (w.head? == some '[') && (w.getLast? == some ']')

/-- `extract_placeholders` (lines 29–36): over every paragraph, split on
whitespace, keep tokens that begin with `[` and end with `]`, strip
brackets, and collect into a set.  The source returns `list(placeholders)`
in unspecified order; the set of members is what is modelled. -/
def extract_placeholders (paras : List Str) : Finset Str :=
  ((paras.map (fun p => ((words p).filter isPlaceholderToken).map stripBrackets)).flatten).toFinset

/-- Python `pat in s` for strings (substring test, line 96). -/
def containsSub (pat : Str) : Str → Bool
  | [] => pat.isEmpty
  | c :: rest => pat.isPrefixOf (c :: rest) || containsSub pat rest

/-- Worker for `replaceAll`, structurally recursive on a fuel bound so the
function reduces inside the kernel; `replaceAll` supplies fuel equal to the
string length, which `replaceAllAux_congr` shows is enough. -/
def replaceAllAux (pat v : Str) : Nat → Str → Str
  | _, [] => []
  | 0, s => s
  | fuel + 1, c :: rest =>
    if pat ≠ [] ∧ pat.isPrefixOf (c :: rest) then
      v ++ replaceAllAux pat v fuel ((c :: rest).drop pat.length)
    else
      c :: replaceAllAux pat v fuel rest

/-- Python `s.replace(pat, v)` for a nonempty pattern (line 97): scan left
to right, replacing each leftmost non-overlapping occurrence of `pat` by
`v`.  (The program only ever calls this with the nonempty pattern
`"[" + key + "]"`; for an empty `pat` this model is the identity.) -/
def replaceAll (pat v s : Str) : Str := replaceAllAux pat v s.length s

/-- The bracketed form `f"[{key}]"` of a field name (lines 96–97). -/
def brk (k : Str) : Str := '[' :: (k ++ [']'])

/-- The body of `fill_template`'s inner loop for one paragraph
(lines 94–97): for each `(key, val)` pair in mapping iteration order, if
`[key]` occurs in the paragraph's current text, replace every occurrence. -/
def fillPara (fv : List (Str × Str)) (t : Str) : Str :=
  fv.foldl
    (fun txt kv => if containsSub (brk kv.1) txt then replaceAll (brk kv.1) kv.2 txt else txt)
    t

/-- `fill_template` (lines 92–101), with the document modelled as its
list of paragraph texts: every paragraph is rewritten by `fillPara`. -/
def fill_template (paras : List Str) (fv : List (Str × Str)) : List Str :=
  paras.map (fillPara fv)

/-- A code point is representable in UTF-8 exactly when it is a Unicode
scalar value; Python `str` may additionally hold lone surrogates
(U+D800–U+DFFF), which `encode("utf-8", "ignore")` silently drops. -/
def utf8Encodable (n : Nat) : Bool := n < 0xD800 || (0xDFFF < n && n ≤ 0x10FFFF)

/-- `clean_text` (lines 16–17): `text.encode("utf-8", "ignore").decode("utf-8")`
drops every code point that UTF-8 cannot encode and keeps the rest. -/
def clean_text (t : List Nat) : List Nat := t.filter utf8Encodable

/-- `extract_pdf_text` (lines 20–26): concatenate the text of every page of
every uploaded PDF, in upload order and in-document page order, then apply
`clean_text` once to the combined string.  A PDF is modelled as its list of
page texts. -/
def extract_pdf_text (pdfs : List (List (List Nat))) : List Nat :=
  clean_text ((pdfs.map (fun doc => doc.flatten)).flatten)

/-- JSON values as produced by `json.loads` / `res.json()`. -/
inductive Json where
  | null
  | bool (b : Bool)
  | num (n : Int)
  | str (s : Str)
  | arr (elts : List Json)
  | obj (fields : List (Str × Json))

/-- Python `d[k]` on a parsed JSON value: succeeds only on an object with
the key present (a `KeyError`/`TypeError` is `none`, caught by the bare
`except` on line 70). -/
def Json.getField : Json → Str → Option Json
  | .obj fs, k => (fs.find? (fun f => f.1 == k)).map (fun f => f.2)
  | _, _ => none

/-- Python `a[i]` on a parsed JSON value, for a nonnegative index. -/
def Json.getIdx : Json → Nat → Option Json
  | .arr l, i => l.get? i
  | _, _ => none

/-- Succeeds only on a JSON string (`json.loads` of a non-string raises). -/
def Json.asStr : Json → Option Str
  | .str s => some s
  | _ => none

/-- Python falsiness (`if not field_values`, line 122) on a JSON value. -/
def Json.falsy : Json → Bool
  | .null => true
  | .bool b => !b
  | .num n => n == 0
  | .str s => s.isEmpty
  | .arr l => l.isEmpty
  | .obj fs => fs.isEmpty

/-- `.items()` of a parsed JSON object whose values are all strings, as
consumed by `fill_template`; `none` when the value is not such an object
(in Python, iteration or `str.replace` would then raise). -/
def Json.strFields : List (Str × Json) → Option (List (Str × Str))
  | [] => some []
  | (k, Json.str s) :: rest => (Json.strFields rest).map (fun l => (k, s) :: l)
  | _ => none

def Json.toPairs : Json → Option (List (Str × Str))
  | .obj fs => Json.strFields fs
  | _ => none

/-- `res.json()["choices"][0]["message"]["content"]` (line 68); `none`
when any step fails, which the bare `except` turns into the empty dict. -/
def extractContent (body : Json) : Option Str :=
  (((body.getField ("choices".toList)).bind (fun cs => cs.getIdx 0)).bind
      (fun c0 => c0.getField ("message".toList))).bind
    (fun m => (m.getField ("content".toList)).bind Json.asStr)

/-- The observable outcome of the single `requests.post` on line 66:
either a transport-level exception or a response with a status code and a
raw body. -/
inductive HttpOutcome where
  | transportError
  | response (status : Nat) (body : Str)

/-- The response handling of `call_llm` (lines 64–72).  `parse` is the
JSON parser (`json.loads` / `res.json()`), passed explicitly; `.obj []` is
the empty dict returned by the `except` branch.  `raise_for_status` raises
exactly for status codes 400–599.  The request construction of lines
40–52 is modelled separately by `buildPrompt`. -/
def call_llm (parse : Str → Option Json) : HttpOutcome → Json
  | .transportError => Json.obj []
  | .response status body =>
    if 400 ≤ status ∧ status < 600 then Json.obj []
    else
      match parse body with
      | none => Json.obj []
      | some bodyJson =>
        match extractContent bodyJson with
        | none => Json.obj []
        | some content =>
          match parse content with
          | none => Json.obj []
          | some j => j

/-- `mock_data` (lines 75–89): the hard-coded fallback table. -/
def mock_data : Json := Json.obj [
  ("XM8_INSURED_NAME".toList, Json.str ("NEW ZION HILL MISSIONARY BAPTIST CHURCH".toList)),
  ("XM8_DATE_LOSS".toList, Json.str ("2024-10-21".toList)),
  ("XM8_DATE_INSPECTED".toList, Json.str ("2024-10-21".toList)),
  ("XM8_INSURED_P_STREET".toList, Json.str ("Unknown Street".toList)),
  ("XM8_INSURED_P_CITY".toList, Json.str ("Unknown City".toList)),
  ("XM8_INSURED_P_STATE".toList, Json.str ("TX".toList)),
  ("XM8_INSURED_P_ZIP".toList, Json.str ("99999".toList)),
  ("XM8_TOL_DESC".toList, Json.str ("Wind".toList)),
  ("XM8_ESTIMATOR_NAME".toList, Json.str ("Steven Kujawski".toList)),
  ("XM8_ESTIMATOR_E_MAIL".toList, Json.str ("commercialclaims@eberls.com".toList)),
  ("XM8_ESTIMATOR_C_PHONE".toList, Json.str ("(800) 607-3604".toList)),
  ("XM8_DATE_CURRENT".toList, Json.str ("2024-12-16".toList))]

/-- `mock_data`'s entries as string pairs, as `fill_template` consumes them. -/
def mockPairs : List (Str × Str) := [
  ("XM8_INSURED_NAME".toList, "NEW ZION HILL MISSIONARY BAPTIST CHURCH".toList),
  ("XM8_DATE_LOSS".toList, "2024-10-21".toList),
  ("XM8_DATE_INSPECTED".toList, "2024-10-21".toList),
  ("XM8_INSURED_P_STREET".toList, "Unknown Street".toList),
  ("XM8_INSURED_P_CITY".toList, "Unknown City".toList),
  ("XM8_INSURED_P_STATE".toList, "TX".toList),
  ("XM8_INSURED_P_ZIP".toList, "99999".toList),
  ("XM8_TOL_DESC".toList, "Wind".toList),
  ("XM8_ESTIMATOR_NAME".toList, "Steven Kujawski".toList),
  ("XM8_ESTIMATOR_E_MAIL".toList, "commercialclaims@eberls.com".toList),
  ("XM8_ESTIMATOR_C_PHONE".toList, "(800) 607-3604".toList),
  ("XM8_DATE_CURRENT".toList, "2024-12-16".toList)]

/-- Lines 121–124 of the orchestrator: the Field Value Mapping actually
used for filling is `mock_data` exactly when `call_llm`'s result is falsy. -/
def resolveFieldValues (parse : Str → Option Json) (o : HttpOutcome) : Json :=
  let fv := call_llm parse o
  if fv.falsy then mock_data else fv

/-- Resolver followed by Template Filler (lines 120–127): the filled
paragraph texts, `none` if the mapping is not an object of strings. -/
def runPipeline (parse : Str → Option Json) (o : HttpOutcome) (paras : List Str) :
    Option (List Str) :=
  ((resolveFieldValues parse o).toPairs).map (fill_template paras)

/-- The apostrophe character used by Python `repr` of a string list. -/
def squote : Char := Char.ofNat 39

/-- Python `f"{placeholders}"` for a list of strings without special
characters: `repr`, e.g. `['A', 'B_C']`. -/
def pyReprList (l : List Str) : Str :=
  '[' :: ((List.intercalate (", ".toList) (l.map (fun s => squote :: (s ++ [squote])))) ++ [']'])

def promptPart1 : String :=
  "\nYou are an insurance report AI assistant. Extract values for the following placeholders from the report below:\n\n"

def promptPart2 : String := "\n\nText:\n\"\"\"\n"

def promptPart3 : String :=
  "\n\"\"\"\n\nReturn ONLY valid JSON like:\n\x7b\"XM8_INSURED_NAME\": \"New Zion Hill Church\", \"XM8_DATE_INSPECTED\": \"2024-10-21\", ...\x7d\n"

/-- The extraction prompt (lines 40–52): the f-string embedding the
placeholder list and `pdf_text[:6000]`. -/
def buildPrompt (placeholders : List Str) (pdf_text : Str) : Str :=
  (promptPart1.toList ++ pyReprList placeholders) ++
    ((promptPart2.toList ++ pdf_text.take 6000) ++ promptPart3.toList)

/-- Python `a or b` for optional strings (line 10): `a` unless it is falsy
(`None` or empty), else `b`. -/
def pyOrStr (a b : Option Str) : Option Str :=
  match a with
  | some s => if s.isEmpty then b else some s
  | none => b

/-- Python truthiness of an optional string (`if not OPENROUTER_API_KEY`). -/
def pyTruthy : Option Str → Bool
  | none => false
  | some s => !s.isEmpty

/-- Line 10: `st.secrets.get(...) or os.getenv(...)`. -/
def apiKeyLookup (secretVal envVal : Option Str) : Option Str := pyOrStr secretVal envVal

/-- Lines 10–13 plus the request handling: when the credential lookup is
falsy the script calls `st.stop()` before any widget is rendered, so no
upload/processing request is ever served (`none`); otherwise a processing
request runs the pipeline. -/
def runApp (secretVal envVal : Option Str) (parse : Str → Option Json)
    (o : HttpOutcome) (paras : List Str) : Option (Option (List Str)) :=
  if pyTruthy (apiKeyLookup secretVal envVal) then some (runPipeline parse o paras)
  else none

/-- A concrete JSON-parser oracle that fails on every input (any body is
unparseable). -/
def parseNone : Str → Option Json := fun _ => none

/-- A concrete JSON-parser oracle for a well-formed completion exchange:
the raw body `B` parses to a proper `choices/message/content` structure
whose content string `C` parses to the one-field object `{"K": "V"}`. -/
def parseKV : Str → Option Json := fun s =>
  if s = "B".toList then
    some (Json.obj [("choices".toList,
      Json.arr [Json.obj [("message".toList,
        Json.obj [("content".toList, Json.str ("C".toList))])]])])
  else if s = "C".toList then
    some (Json.obj [("K".toList, Json.str ("V".toList))])
  else none

/-- A concrete JSON-parser oracle for a well-formed completion exchange
whose content is the legitimately parseable empty JSON object. -/
def parseEmptyObj : Str → Option Json := fun s =>
  if s = "B2".toList then
    some (Json.obj [("choices".toList,
      Json.arr [Json.obj [("message".toList,
        Json.obj [("content".toList, Json.str ("\x7b\x7d".toList))])]])])
  else if s = "\x7b\x7d".toList then some (Json.obj [])
  else none

/-- Any fuel of at least the string's length computes the same result. -/
lemma replaceAllAux_congr (pat v : Str) :
    ∀ (f₁ f₂ : Nat) (s : Str), s.length ≤ f₁ → s.length ≤ f₂ →
      replaceAllAux pat v f₁ s = replaceAllAux pat v f₂ s := by
  intro f₁
  induction f₁ with
  | zero =>
    intro f₂ s h₁ _
    have : s = [] := List.length_eq_zero.mp (Nat.le_zero.mp h₁)
    subst this
    cases f₂ <;> rfl
  | succ g ih =>
    intro f₂ s h₁ h₂
    cases s with
    | nil => cases f₂ <;> rfl
    | cons c rest =>
      cases f₂ with
      | zero => exact absurd h₂ (by simp)
      | succ g₂ =>
        simp only [replaceAllAux]
        by_cases hc : pat ≠ [] ∧ pat.isPrefixOf (c :: rest)
        · simp only [if_pos hc]
          have hp : 0 < pat.length := List.length_pos.mpr hc.1
          have hlen : ((c :: rest).drop pat.length).length ≤ g := by
            simp only [List.length_drop, List.length_cons]
            simp only [List.length_cons] at h₁
            omega
          have hlen₂ : ((c :: rest).drop pat.length).length ≤ g₂ := by
            simp only [List.length_drop, List.length_cons]
            simp only [List.length_cons] at h₂
            omega
          rw [ih g₂ _ hlen hlen₂]
        · simp only [if_neg hc]
          have hlen : rest.length ≤ g := by
            simp only [List.length_cons] at h₁; omega
          have hlen₂ : rest.length ≤ g₂ := by
            simp only [List.length_cons] at h₂; omega
          rw [ih g₂ rest hlen hlen₂]

@[simp] lemma replaceAll_nil (pat v : Str) : replaceAll pat v [] = [] := rfl

/-- Unfolding equation for `replaceAll` when the pattern matches at the head. -/
lemma replaceAll_cons_pos (pat v : Str) (c : Char) (rest : Str)
    (hne : pat ≠ []) (hp : pat.isPrefixOf (c :: rest)) :
    replaceAll pat v (c :: rest) = v ++ replaceAll pat v ((c :: rest).drop pat.length) := by
  have h1 : replaceAll pat v (c :: rest)
      = replaceAllAux pat v (rest.length + 1) (c :: rest) := rfl
  rw [h1]
  simp only [replaceAllAux, if_pos (And.intro hne hp)]
  congr 1
  exact replaceAllAux_congr pat v rest.length _ _
    (by simp only [List.length_drop, List.length_cons]
        have := List.length_pos.mpr hne; omega)
    (le_refl _)

/-- Unfolding equation for `replaceAll` when the pattern does not match at
the head (or is empty). -/
lemma replaceAll_cons_neg (pat v : Str) (c : Char) (rest : Str)
    (h : ¬(pat ≠ [] ∧ pat.isPrefixOf (c :: rest))) :
    replaceAll pat v (c :: rest) = c :: replaceAll pat v rest := by
  have h1 : replaceAll pat v (c :: rest)
      = replaceAllAux pat v (rest.length + 1) (c :: rest) := rfl
  rw [h1]
  simp only [replaceAllAux, if_neg h]
  rfl

/-- A boolean prefix gives an append decomposition. -/
lemma isPrefixOf_eq_append :
    ∀ {l₁ l₂ : Str}, l₁.isPrefixOf l₂ = true → l₂ = l₁ ++ l₂.drop l₁.length := by
  intro l₁
  induction l₁ with
  | nil => intro l₂ _; simp
  | cons a as ih =>
    intro l₂ h
    cases l₂ with
    | nil => simp [List.isPrefixOf] at h
    | cons b bs =>
      simp only [List.isPrefixOf, Bool.and_eq_true, beq_iff_eq] at h
      obtain ⟨rfl, h2⟩ := h
      simpa using ih h2

/-- A prefix of a list is a prefix of any right extension of it. -/
lemma isPrefixOf_append_ext :
    ∀ {l m : Str} (n : Str), l.isPrefixOf m = true → l.isPrefixOf (m ++ n) = true := by
  intro l
  induction l with
  | nil => intro m n _; simp [List.isPrefixOf]
  | cons a as ih =>
    intro m n h
    cases m with
    | nil => simp [List.isPrefixOf] at h
    | cons b bs =>
      simp only [List.isPrefixOf, Bool.and_eq_true, beq_iff_eq] at h
      obtain ⟨rfl, h2⟩ := h
      simpa [List.isPrefixOf] using ih n h2

/-- `str.replace` leaves a string without an occurrence of the pattern
unchanged. -/
lemma replaceAll_of_not_contains (pat v : Str) :
    ∀ t : Str, containsSub pat t = false → replaceAll pat v t = t := by
  intro t
  induction t with
  | nil => intro _; rfl
  | cons c rest ih =>
    intro h
    simp only [containsSub, Bool.or_eq_false_iff] at h
    rw [replaceAll_cons_neg pat v c rest (by simp [h.1]), ih h.2]

/-- `str.replace` on a string containing the pattern: the string splits at
the leftmost occurrence (nothing before it contains the pattern), that
occurrence becomes `v`, and scanning continues to the right of it. -/
lemma replaceAll_decomp (pat v : Str) (hne : pat ≠ []) :
    ∀ t : Str, containsSub pat t = true →
      ∃ pre post, t = pre ++ pat ++ post ∧ containsSub pat pre = false ∧
        replaceAll pat v t = pre ++ v ++ replaceAll pat v post := by
  intro t
  induction t with
  | nil =>
    intro h
    simp only [containsSub, List.isEmpty_iff] at h
    exact absurd h hne
  | cons c rest ih =>
    intro h
    by_cases hp : pat.isPrefixOf (c :: rest) = true
    · refine ⟨[], (c :: rest).drop pat.length, ?_, ?_, ?_⟩
      · simpa using isPrefixOf_eq_append hp
      · simp [containsSub, List.isEmpty_iff, hne]
      · simpa using replaceAll_cons_pos pat v c rest hne hp
    · have hrest : containsSub pat rest = true := by
        simp only [containsSub, Bool.or_eq_true] at h
        rcases h with h | h
        · exact absurd h hp
        · exact h
      obtain ⟨pre, post, hsplit, hnocc, heq⟩ := ih hrest
      refine ⟨c :: pre, post, by simp [hsplit], ?_, ?_⟩
      · simp only [containsSub, Bool.or_eq_false_iff]
        refine ⟨?_, hnocc⟩
        by_contra hcp
        rw [Bool.not_eq_false] at hcp
        have hext := isPrefixOf_append_ext (pat ++ post) hcp
        have : (c :: pre) ++ (pat ++ post) = c :: rest := by simp [hsplit]
        rw [this] at hext
        exact hp hext
      · rw [replaceAll_cons_neg pat v c rest (by simp [hp]), heq]
        simp

/-- `fillPara` over a concatenation of mappings is sequential composition:
later pairs act on the text already rewritten by earlier pairs. -/
lemma fillPara_append (m₁ m₂ : List (Str × Str)) (t : Str) :
    fillPara (m₁ ++ m₂) t = fillPara m₂ (fillPara m₁ t) := by
  simp [fillPara, List.foldl_append]

/-- A paragraph containing no mapped key's bracketed form is unchanged. -/
lemma fillPara_id (fv : List (Str × Str)) :
    ∀ t : Str, (∀ kv ∈ fv, containsSub (brk kv.1) t = false) → fillPara fv t = t := by
  induction fv with
  | nil => intro t _; rfl
  | cons kv rest ih =>
    intro t h
    have hkv := h kv (by simp)
    have hstep : fillPara (kv :: rest) t = fillPara rest t := by
      simp [fillPara, hkv]
    rw [hstep]
    exact ih t (fun kv' hkv' => h kv' (by simp [hkv']))

/-- Keeping the selected elements and counting the dropped ones accounts
for every element of a list. -/
lemma filter_length_add_countP_not (p : Nat → Bool) :
    ∀ l : List Nat, (l.filter p).length + l.countP (fun c => !p c) = l.length := by
  intro l
  induction l with
  | nil => rfl
  | cons c rest ih =>
    by_cases h : p c
    · simp [List.filter_cons, List.countP_cons, h]
      omega
    · have hb : p c = false := by simpa using h
      simp [List.filter_cons, List.countP_cons, hb]
      omega

/-- C1 (amended): for each `(name, value)` pair, taken in mapping iteration
order over the paragraph's current text, a pair whose bracketed form does
not occur in the current text leaves it unchanged at that step, and a pair
whose bracketed form does occur performs a full left-to-right replacement:
the text splits at the leftmost occurrence, that occurrence becomes
`value`, and replacement continues on the remainder; substitution over a
mapping is sequential composition of these steps.  Concretely, mapping
`{"X": "hello"}` turns `"Value: [X] end"` into `"Value: hello end"` and
leaves a paragraph containing `[Y]` (no `Y` key) unchanged. -/
theorem c1_theorem :
    (∀ (k v t : Str), containsSub (brk k) t = false → fillPara [(k, v)] t = t) ∧
    (∀ (k v t : Str), containsSub (brk k) t = true →
      fillPara [(k, v)] t = replaceAll (brk k) v t ∧
      ∃ pre post, t = pre ++ brk k ++ post ∧ containsSub (brk k) pre = false ∧
        replaceAll (brk k) v t = pre ++ v ++ replaceAll (brk k) v post) ∧
    (∀ (m₁ m₂ : List (Str × Str)) (t : Str),
      fillPara (m₁ ++ m₂) t = fillPara m₂ (fillPara m₁ t)) ∧
    fill_template ["Value: [X] end".toList, "see [Y] here".toList]
        [("X".toList, "hello".toList)]
      = ["Value: hello end".toList, "see [Y] here".toList] := by
  refine ⟨?_, ?_, fillPara_append, by decide⟩
  · intro k v t h
    simp [fillPara, h]
  · intro k v t h
    refine ⟨by simp [fillPara, h], ?_⟩
    exact replaceAll_decomp (brk k) v (by simp [brk]) t h

/-- C1 witness: a pair whose bracketed key does not occur leaves the
paragraph unchanged. -/
theorem c1_witness :
    fillPara [("Z".toList, "q".toList)] ("abc".toList) = "abc".toList :=
  c1_theorem.1 ("Z".toList) ("q".toList) ("abc".toList) (by decide)

/-- C1 counterexample: with mapping `{"Y] y": ""}` the paragraph
`"a [Y] y] b"` contains the placeholder `[Y]` and `Y` has no entry in the
mapping, yet the output `"a  b"` no longer contains `[Y]` — an unmapped
placeholder is not always left verbatim. -/
theorem c1_counterexample :
    fill_template ["a [Y] y] b".toList] [("Y] y".toList, ([] : Str))] = ["a  b".toList] ∧
    containsSub ("[Y]".toList) ("a [Y] y] b".toList) = true ∧
    containsSub ("[Y]".toList) ("a  b".toList) = false ∧
    ¬ ("Y".toList ∈ ([("Y] y".toList, ([] : Str))].map Prod.fst)) := by decide

/-- C3 (amended): a name is a member of the Placeholder Scanner's result
iff some paragraph has a whitespace-delimited token that begins with `[`,
ends with `]`, and equals the name after stripping ALL leading and trailing
bracket characters (Python `strip("[]")`), not exactly one each. -/
theorem c3_theorem :
    ∀ (paras : List Str) (name : Str),
      name ∈ extract_placeholders paras ↔
        ∃ p ∈ paras, ∃ w ∈ words p, isPlaceholderToken w = true ∧ stripBrackets w = name := by
  intro paras name
  simp only [extract_placeholders, List.mem_toFinset, List.mem_flatten, List.mem_map]
  constructor
  · rintro ⟨l, ⟨p, hp, rfl⟩, hmem⟩
    obtain ⟨w, hw, rfl⟩ := List.mem_map.mp hmem
    have hw' := List.mem_filter.mp hw
    exact ⟨p, hp, w, hw'.1, hw'.2, rfl⟩
  · rintro ⟨p, hp, w, hw, htok, rfl⟩
    exact ⟨_, ⟨p, hp, rfl⟩, List.mem_map.mpr ⟨w, List.mem_filter.mpr ⟨hw, htok⟩, rfl⟩⟩

/-- C3 counterexample: for the paragraph `"[[A]]"` the scanner yields the
name `A`, although the literal substring `[A]` never appears as a
whitespace-delimited word, and stripping exactly one bracket from each end
of the token `[[A]]` would give `[A]`, not `A`. -/
theorem c3_counterexample :
    extract_placeholders ["[[A]]".toList] = {"A".toList} ∧
    ¬ ("[A]".toList ∈ words ("[[A]]".toList)) ∧
    stripBrackets ("[[A]]".toList) = "A".toList ∧
    ("A".toList : Str) ≠ "[A]".toList := by decide

/-- C5: on paragraphs with tokens `[A]`, `[B_C]`, `plain`, `[D]E` the
Placeholder Set is exactly `{A, B_C}`; the single token `[A][B]` yields the
one degenerate name `A][B`; the token `[]` yields the empty name. -/
theorem c5_theorem :
    extract_placeholders ["[A] [B_C] plain [D]E".toList] = {"A".toList, "B_C".toList} ∧
    extract_placeholders ["[A][B]".toList] = {"A][B".toList} ∧
    extract_placeholders ["[]".toList] = {([] : Str)} := by decide

/-- C6 (amended): filling twice with the same mapping is a no-op provided
no paragraph of the once-filled document still contains `[k]` for a key
`k` of the mapping.  (The claim's original proviso — that no value contains
a bracketed key — is not sufficient; see the counterexample.) -/
theorem c6_theorem :
    ∀ (fv : List (Str × Str)) (paras : List Str),
      (∀ kv ∈ fv, ∀ p ∈ fill_template paras fv, containsSub (brk kv.1) p = false) →
      fill_template (fill_template paras fv) fv = fill_template paras fv := by
  intro fv paras h
  unfold fill_template
  rw [List.map_map]
  refine List.map_congr_left ?_
  intro p hp
  simp only [Function.comp]
  exact fillPara_id fv (fillPara fv p)
    (fun kv hkv => h kv hkv (fillPara fv p) (List.mem_map_of_mem _ hp))

/-- C6 witness: refilling an already fully filled document changes nothing. -/
theorem c6_witness :
    fill_template (fill_template ["Value: [X] end".toList] [("X".toList, "hello".toList)])
        [("X".toList, "hello".toList)]
      = fill_template ["Value: [X] end".toList] [("X".toList, "hello".toList)] :=
  c6_theorem [("X".toList, "hello".toList)] ["Value: [X] end".toList] (by decide)

/-- C6 counterexample: mapping `{"A": ""}` has no value containing a
bracketed key, yet on the paragraph `"[[A]A]"` the first fill yields
`"[A]"` and the second fill yields `""` — the second pass is not a no-op,
because replacement spliced a fresh `[A]` out of the surrounding text. -/
theorem c6_counterexample :
    containsSub (brk ("A".toList)) ([] : Str) = false ∧
    fill_template ["[[A]A]".toList] [("A".toList, ([] : Str))] = ["[A]".toList] ∧
    fill_template (fill_template ["[[A]A]".toList] [("A".toList, ([] : Str))])
        [("A".toList, ([] : Str))] = [([] : Str)] ∧
    fill_template (fill_template ["[[A]A]".toList] [("A".toList, ([] : Str))])
        [("A".toList, ([] : Str))]
      ≠ fill_template ["[[A]A]".toList] [("A".toList, ([] : Str))] := by decide

/-- C10: substitution is sequential, not simultaneous: with the mapping
`A ↦ "[B]", B ↦ "x"` (in that iteration order) the paragraph `"[A]"`
becomes `"x"` — the text inserted for `A` contains `[B]` and is itself
replaced — while the reverse iteration order yields `"[B]"`. -/
theorem c10_theorem :
    fill_template ["[A]".toList] [("A".toList, "[B]".toList), ("B".toList, "x".toList)]
      = ["x".toList] ∧
    fill_template ["[A]".toList] [("B".toList, "x".toList), ("A".toList, "[B]".toList)]
      = ["[B]".toList] ∧
    containsSub (brk ("B".toList)) ("[B]".toList) = true ∧
    (["x".toList] : List Str) ≠ ["[B]".toList] := by decide

/-- C4: the extraction prompt depends only on the first 6000 characters of
the extracted text — it is literally unchanged by truncating the text to
6000 characters, and any two texts agreeing on their first 6000 characters
produce the same prompt — the first 6000 characters appear verbatim inside
the prompt, and text of length at most 6000 is embedded whole. -/
theorem c4_theorem :
    ∀ (ph : List Str) (t : Str),
      buildPrompt ph t = buildPrompt ph (t.take 6000) ∧
      (∀ u : Str, u.take 6000 = t.take 6000 → buildPrompt ph u = buildPrompt ph t) ∧
      (∃ pre post, buildPrompt ph t = pre ++ (t.take 6000 ++ post)) ∧
      (t.length ≤ 6000 → ∃ pre post, buildPrompt ph t = pre ++ (t ++ post)) := by
  intro ph t
  refine ⟨?_, ?_, ?_, ?_⟩
  · simp [buildPrompt, List.take_take]
  · intro u h
    simp [buildPrompt, h]
  · exact ⟨(promptPart1.toList ++ pyReprList ph) ++ promptPart2.toList, promptPart3.toList,
      by simp [buildPrompt]⟩
  · intro h
    refine ⟨(promptPart1.toList ++ pyReprList ph) ++ promptPart2.toList, promptPart3.toList, ?_⟩
    simp [buildPrompt, List.take_of_length_le h]

/-- C4 witness: a one-character text is embedded whole in the prompt. -/
theorem c4_witness :
    ∃ pre post, buildPrompt [] ("x".toList) = pre ++ ("x".toList ++ post) :=
  (c4_theorem [] ("x".toList)).2.2.2 (by decide)

/-- C7: the Extracted Text is the concatenation, in upload order and
in-document page order, of every page's text with its UTF-8-unencodable
code points dropped; consequently its length plus the number of dropped
code points equals the sum of all page-text lengths. -/
theorem c7_theorem :
    ∀ pdfs : List (List (List Nat)),
      extract_pdf_text pdfs
          = (pdfs.map (fun doc => (doc.map clean_text).flatten)).flatten ∧
      (extract_pdf_text pdfs).length
            + (pdfs.map (fun doc =>
                (doc.map (fun page => page.countP (fun c => !utf8Encodable c))).sum)).sum
          = (pdfs.map (fun doc => (doc.map List.length).sum)).sum := by
  intro pdfs
  constructor
  · rw [extract_pdf_text, clean_text, List.filter_flatten, List.map_map]
    apply congrArg List.flatten
    apply List.map_congr_left
    intro doc _
    simp only [Function.comp, List.filter_flatten]
    apply congrArg List.flatten
    apply List.map_congr_left
    intro page _
    simp [clean_text]
  · have hdrop : List.countP (fun c => !utf8Encodable c)
          ((pdfs.map (fun doc => doc.flatten)).flatten)
        = (pdfs.map (fun doc =>
            (doc.map (fun page => page.countP (fun c => !utf8Encodable c))).sum)).sum := by
      rw [List.countP_flatten, List.map_map]
      apply congrArg List.sum
      apply List.map_congr_left
      intro doc _
      simp [Function.comp, List.countP_flatten]
    have htot : ((pdfs.map (fun doc => doc.flatten)).flatten).length
        = (pdfs.map (fun doc => (doc.map List.length).sum)).sum := by
      rw [List.length_flatten, List.map_map]
      apply congrArg List.sum
      apply List.map_congr_left
      intro doc _
      simp [Function.comp, List.length_flatten]
    have hkey := filter_length_add_countP_not utf8Encodable
      ((pdfs.map (fun doc => doc.flatten)).flatten)
    have hext : (extract_pdf_text pdfs).length
        = (((pdfs.map (fun doc => doc.flatten)).flatten).filter utf8Encodable).length := rfl
    omega

/-- The fallback table's entries, as `fill_template` receives them. -/
lemma mock_toPairs : Json.toPairs mock_data = some mockPairs := by rfl

/-- C2 (amended): if the remote call raises a transport error, returns a
4xx or 5xx status (`raise_for_status` raises exactly for 400–599; other
non-2xx statuses such as 304 are not treated as errors), returns a body
that is unparseable or lacks the `choices/message/content` structure, or
returns content that is not parseable as JSON, then the Resolver returns
the empty mapping; and whenever the Resolver returns the empty mapping the
Orchestrator substitutes the hard-coded fallback table verbatim and the
run continues to completion, filling with exactly the fallback pairs. -/
theorem c2_theorem :
    ∀ (parse : Str → Option Json) (status : Nat) (body : Str) (o : HttpOutcome)
      (paras : List Str),
      call_llm parse HttpOutcome.transportError = Json.obj [] ∧
      (400 ≤ status → status < 600 →
        call_llm parse (HttpOutcome.response status body) = Json.obj []) ∧
      (¬(400 ≤ status ∧ status < 600) → parse body = none →
        call_llm parse (HttpOutcome.response status body) = Json.obj []) ∧
      (∀ bj, ¬(400 ≤ status ∧ status < 600) → parse body = some bj →
        extractContent bj = none →
        call_llm parse (HttpOutcome.response status body) = Json.obj []) ∧
      (∀ bj content, ¬(400 ≤ status ∧ status < 600) → parse body = some bj →
        extractContent bj = some content → parse content = none →
        call_llm parse (HttpOutcome.response status body) = Json.obj []) ∧
      (call_llm parse o = Json.obj [] →
        resolveFieldValues parse o = mock_data ∧
        runPipeline parse o paras = some (fill_template paras mockPairs)) := by
  intro parse status body o paras
  refine ⟨rfl, ?_, ?_, ?_, ?_, ?_⟩
  · intro h1 h2
    simp [call_llm, h1, h2]
  · intro hst hb
    simp [call_llm, hst, hb]
  · intro bj hst hb hac
    simp [call_llm, hst, hb, hac]
  · intro bj content hst hb hac hpc
    simp [call_llm, hst, hb, hac, hpc]
  · intro h
    have h1 : resolveFieldValues parse o = mock_data := by
      simp [resolveFieldValues, h, Json.falsy]
    refine ⟨h1, ?_⟩
    simp [runPipeline, h1, mock_toPairs]

/-- C2 witness: a 404 status yields the empty mapping. -/
theorem c2_witness :
    call_llm parseNone (HttpOutcome.response 404 ("B".toList)) = Json.obj [] :=
  (c2_theorem parseNone 404 ("B".toList) HttpOutcome.transportError []).2.1
    (by decide) (by decide)

/-- C2 counterexample: status 304 is not 2xx, yet `raise_for_status` does
not raise for it, so a well-formed body is processed normally: the
Resolver returns the parsed one-field mapping, not the empty mapping, and
the fallback table is not substituted. -/
theorem c2_counterexample :
    ¬((200 : Nat) ≤ 304 ∧ (304 : Nat) < 300) ∧
    (call_llm parseKV (HttpOutcome.response 304 ("B".toList))).toPairs
      = some [("K".toList, "V".toList)] ∧
    (call_llm parseKV (HttpOutcome.response 304 ("B".toList))).falsy = false ∧
    (resolveFieldValues parseKV (HttpOutcome.response 304 ("B".toList))).toPairs
      = some [("K".toList, "V".toList)] ∧
    ¬((some [("K".toList, "V".toList)] : Option (List (Str × Str))) = some mockPairs) := by
  exact ⟨by decide, rfl, rfl, rfl, by decide⟩

/-- C8: when neither the secrets store nor the environment provides a
truthy credential, the credential lookup is falsy and the application
halts at startup: no upload/processing request is ever served, regardless
of the request. -/
theorem c8_theorem :
    ∀ (sv ev : Option Str), pyTruthy sv = false → pyTruthy ev = false →
      pyTruthy (apiKeyLookup sv ev) = false ∧
      ∀ (parse : Str → Option Json) (o : HttpOutcome) (paras : List Str),
        runApp sv ev parse o paras = none := by
  intro sv ev hsv hev
  have hkey : pyTruthy (apiKeyLookup sv ev) = false := by
    cases sv with
    | none => simpa [apiKeyLookup, pyOrStr] using hev
    | some s =>
      have hs : s.isEmpty = true := by simpa [pyTruthy] using hsv
      simpa [apiKeyLookup, pyOrStr, hs] using hev
  exact ⟨hkey, fun parse o paras => by simp [runApp, hkey]⟩

/-- C8 witness: with no secret and no environment variable, nothing is
served. -/
theorem c8_witness :
    runApp none none parseNone HttpOutcome.transportError [] = none :=
  (c8_theorem none none (by decide) (by decide)).2 parseNone HttpOutcome.transportError []

/-- C9: the Orchestrator substitutes the fallback table precisely when the
Resolver's result is falsy, so a structurally perfect 200 response whose
content is the legitimately parseable empty JSON object also triggers the
fallback and is indistinguishable from a failed call: the field values
used, and hence the filled output, match those of a transport error. -/
theorem c9_theorem :
    (∀ (parse : Str → Option Json) (o : HttpOutcome) (paras : List Str),
      (call_llm parse o).falsy = true →
        resolveFieldValues parse o = mock_data ∧
        runPipeline parse o paras = runPipeline parse HttpOutcome.transportError paras) ∧
    call_llm parseEmptyObj (HttpOutcome.response 200 ("B2".toList)) = Json.obj [] ∧
    parseEmptyObj ("\x7b\x7d".toList) = some (Json.obj []) ∧
    (resolveFieldValues parseEmptyObj (HttpOutcome.response 200 ("B2".toList))).toPairs
      = some mockPairs ∧
    resolveFieldValues parseEmptyObj (HttpOutcome.response 200 ("B2".toList))
      = resolveFieldValues parseEmptyObj HttpOutcome.transportError := by
  refine ⟨?_, rfl, rfl, rfl, rfl⟩
  intro parse o paras h
  have h1 : resolveFieldValues parse o = mock_data := by
    simp [resolveFieldValues, h]
  refine ⟨h1, ?_⟩
  have h2 : resolveFieldValues parse HttpOutcome.transportError = mock_data := by
    simp [resolveFieldValues, call_llm, Json.falsy]
  simp [runPipeline, h1, h2]

/-- C9 witness: a transport error's field values are the fallback table. -/
theorem c9_witness :
    resolveFieldValues parseEmptyObj HttpOutcome.transportError = mock_data ∧
    runPipeline parseEmptyObj HttpOutcome.transportError []
      = runPipeline parseEmptyObj HttpOutcome.transportError [] :=
  c9_theorem.1 parseEmptyObj HttpOutcome.transportError [] (by decide)

end Eberl
